import Mathlib

/-!
Verification development for the `create-expo-module` CLI
(`packages/create-expo-module/build/create-expo-module.js`).

The tool is a sequential scaffolding pipeline: collect a slug and
substitution fields, confirm a non-empty target directory, acquire a
template tree (local path or npm tarball), render every template file
(path and content) with EJS, and post-process.  We embed the pure core of
each step as executable Lean definitions: strings are `String`/`List Char`,
the filesystem is an explicit directory-tree datatype, interactive prompts
and process exits become explicit inputs and an event trace.

EJS itself is an external library; following its documented semantics we
model the fragment the tool exercises: literal text is copied, an output
tag (open delimiter followed by `%=` or `%-`, closed by `%` and the close
delimiter) is replaced by the looked-up data value, passed through the
configured escape function for `%=`.  Expressions are modelled as dotted
property names looked up in the substitution data; anything else makes the
render fail (`none`), as EJS would throw.
-/

namespace Expo

/-- `path.sep` on a POSIX platform, the separator `path.join` inserts. -/
def pathSepChar : Char := Char.ofNat 47

/-- Model of Node's `path.join` for one already-normalized segment pair. -/
def pathJoin (a b : String) : String := a ++ "/" ++ b

/-- The relative path built in `getFilesAsync`:
`dir ? path.join(dir, file) : file`. -/
def joinRel (dir : Option String) (name : String) : String :=
  match dir with
  | none => name
  | some d => pathJoin d name

/-- Split a character list into its path components at `'/'`. -/
def splitSep : List Char → List (List Char)
  | [] => [[]]
  | c :: rest =>
    if c = pathSepChar then
      [] :: splitSep rest
    else
      match splitSep rest with
      | [] => [[c]]
      | g :: gs => (c :: g) :: gs

/-- `file.replace(/^\$/, '')`: JavaScript `replace` with the anchored
regex `^\$` removes a single `$` at the very start of the string (and
nothing anywhere else). -/
def stripLeadingDollar (s : String) : String :=
  match s.data with
  | [] => s
  | c :: rest => if c = '$' then ⟨rest⟩ else s

/-- `value.replace('.', path.sep)` on the character list: JavaScript
`String.prototype.replace` with a *string* pattern substitutes only the
first occurrence. -/
def replaceFirstDot : List Char → List Char
  | [] => []
  | c :: cs => if c = '.' then pathSepChar :: cs else c :: replaceFirstDot cs

/-- The `escape` option passed to `ejs.render` for relative paths:
`(value) => value.replace('.', path.sep)`. -/
def pathEscape (v : String) : String := ⟨replaceFirstDot v.data⟩

/-- One character of EJS's default `escapeXML` function
(`& < > " '` become entities, everything else is kept). -/
def escapeXMLChar (c : Char) : List Char :=
  if c = '&' then "&amp;".data
  else if c = '<' then "&lt;".data
  else if c = '>' then "&gt;".data
  else if c = Char.ofNat 34 then "&#34;".data
  else if c = Char.ofNat 39 then "&#39;".data
  else [c]

/-- EJS's default escape function (`ejs.escapeXML`), used for file
contents rendered with default options. -/
def escapeXML (s : String) : String := ⟨(s.data.map escapeXMLChar).flatten⟩

/-- Scan for the closing sequence `'%'` followed by the close delimiter;
return the tag body and the remaining input. `none` when the tag is
unterminated (EJS throws there). -/
def splitAtClose (cd : Char) : List Char → Option (List Char × List Char)
  | [] => none
  | '%' :: c :: rest =>
    if c = cd then some ([], rest)
    else (splitAtClose cd (c :: rest)).map (fun p => ('%' :: p.1, p.2))
  | c :: rest => (splitAtClose cd rest).map (fun p => (c :: p.1, p.2))

/-- Drop leading spaces. -/
def dropSpaces : List Char → List Char
  | [] => []
  | c :: rest => if c = ' ' then dropSpaces rest else c :: rest

/-- JavaScript expression text is whitespace-insensitive at its ends; the
tag body is trimmed before being looked up as a property path. -/
def trimKey (l : List Char) : List Char :=
  (dropSpaces (dropSpaces l.reverse).reverse)

/-- Handling of one output tag whose open delimiter has been recognized:
`rest` starts with the `%` and the mode character.  `recurse` renders the
input remaining after the tag. -/
def renderTag (cd : Char) (esc : String → String)
    (lookup : String → Option String)
    (recurse : List Char → Option (List Char)) : List Char → Option (List Char)
  | _ :: m :: rest2 =>
    if m = '=' ∨ m = '-' then
      match splitAtClose cd rest2 with
      | none => none
      | some (key, rest3) =>
        match lookup ⟨trimKey key⟩ with
        | none => none
        | some v =>
          match recurse rest3 with
          | none => none
          | some out => some ((if m = '=' then (esc v).data else v.data) ++ out)
    else none
  | _ => none

/-- Fuel-indexed EJS rendering loop (fuel makes the recursion structural;
`ejsRender` supplies enough fuel for every input).  `od`/`cd` are the
configured open/close delimiters, `esc` the escape function, `lookup` the
data environment.  Output tags `od % =` (escaped) and `od % -` (raw) are
substituted; other tag kinds and render-time errors give `none`. -/
def ejsRenderFuel (od cd : Char) (esc : String → String)
    (lookup : String → Option String) : Nat → List Char → Option (List Char)
  | 0, _ => none
  | _ + 1, [] => some []
  | fuel + 1, c :: rest =>
    if c = od ∧ rest.head? = some '%' then
      renderTag cd esc lookup (ejsRenderFuel od cd esc lookup fuel) rest
    else
      match ejsRenderFuel od cd esc lookup fuel rest with
      | none => none
      | some out => some (c :: out)

/-- `ejs.render template data opts`, modelled on the output-tag fragment. -/
def ejsRender (od cd : Char) (esc : String → String)
    (lookup : String → Option String) (template : String) : Option String :=
  (ejsRenderFuel od cd esc lookup (template.data.length + 1) template.data).map
    (fun l => ⟨l⟩)

/-- `SubstitutionData.project` (types.ts). -/
structure ProjectData where
  slug : String
  name : String
  version : String
  description : String
  package : String
deriving DecidableEq, Repr

/-- The record consumed by the renderer (types.ts `SubstitutionData`). -/
structure SubstitutionData where
  project : ProjectData
  author : String
  license : String
  repo : String
deriving DecidableEq, Repr

/-- The dotted property paths an EJS expression can reach in the
substitution data object. -/
def lookupSubst (d : SubstitutionData) : String → Option String
  | "project.slug" => some d.project.slug
  | "project.name" => some d.project.name
  | "project.version" => some d.project.version
  | "project.description" => some d.project.description
  | "project.package" => some d.project.package
  | "author" => some d.author
  | "license" => some d.license
  | "repo" => some d.repo
  | _ => none

/-- Rendering of a relative path in `createModuleFromTemplate`:
`ejs.render(file, data, { openDelimiter: '{', closeDelimiter: '}',
escape: (value) => value.replace('.', path.sep) })` (the `^\$` strip has
already been applied by the caller). -/
def renderPathTemplate (d : SubstitutionData) (tmpl : String) : Option String :=
  ejsRender (Char.ofNat 123) (Char.ofNat 125) pathEscape (lookupSubst d) tmpl

/-- Rendering of a file content in `createModuleFromTemplate`:
`ejs.render(template, data)` with default delimiters and default escape. -/
def renderContentTemplate (d : SubstitutionData) (tmpl : String) : Option String :=
  ejsRender '<' '>' escapeXML (lookupSubst d) tmpl

/-! ## Filesystem model

A directory is a `readdir`-ordered sequence of named entries; each entry
is a regular file with its text content or a subdirectory (the
`lstat(...).isDirectory()` distinction).  Reading a file is folded into
the traversal (the source reads `path.join(templatePath, file)` right
after discovering `file`, which yields exactly that entry's content). -/

/-- A directory listing: named files (with contents) and subdirectories. -/
inductive FSEntries where
  | nil : FSEntries
  | consFile (name : String) (content : String) (rest : FSEntries) : FSEntries
  | consDir (name : String) (sub : FSEntries) (rest : FSEntries) : FSEntries
deriving DecidableEq, Repr

/-- `IGNORES_PATHS` from the source. -/
def IGNORES_PATHS : List String := [".DS_Store", "build", "node_modules", "package.json"]

/-- The skip test of `getFilesAsync`:
`IGNORES_PATHS.includes(relativePath) || IGNORES_PATHS.includes(file)`. -/
def isIgnored (dir : Option String) (name : String) : Prop :=
  joinRel dir name ∈ IGNORES_PATHS ∨ name ∈ IGNORES_PATHS

instance (dir : Option String) (name : String) : Decidable (isIgnored dir name) := by
  unfold isIgnored; infer_instance

/-- `getFilesAsync root dir` with file contents carried along: for every
entry, compute `relativePath`, skip ignored entries, recurse into
directories, collect `(relativePath, content)` for files. -/
def getFilesC (dir : Option String) : FSEntries → List (String × String)
  | .nil => []
  | .consFile name content rest =>
    if isIgnored dir name then getFilesC dir rest
    else (joinRel dir name, content) :: getFilesC dir rest
  | .consDir name sub rest =>
    if isIgnored dir name then getFilesC dir rest
    else getFilesC (some (joinRel dir name)) sub ++ getFilesC dir rest

/-- `getFilesAsync(root)`: the discovered relative paths. -/
def getFilesAsync (root : FSEntries) : List String :=
  (getFilesC none root).map (fun fc => fc.1)

/-- Every entry name in the tree is a plain filename component: nonempty
is not needed, but a name may not contain the path separator. -/
def namesOk : FSEntries → Bool
  | .nil => true
  | .consFile name _ rest => name.data.all (fun c => c ≠ pathSepChar) && namesOk rest
  | .consDir name sub rest =>
    name.data.all (fun c => c ≠ pathSepChar) && namesOk sub && namesOk rest

/-! ## The render step -/

/-- The body of the `for`-loop of `createModuleFromTemplate` for one
discovered file: strip a leading `$` from the relative path, render the
path with custom delimiters and the dot-to-separator escape, render the
content with default options, and produce the write
`(path.join(targetPath, renderedRelativePath), renderedContent)`. -/
def renderFile (d : SubstitutionData) (targetPath : String)
    (file content : String) : Option (String × String) :=
  match renderPathTemplate d (stripLeadingDollar file),
        renderContentTemplate d content with
  | some renderedRelativePath, some renderedContent =>
    some (pathJoin targetPath renderedRelativePath, renderedContent)
  | _, _ => none

/-- `createModuleFromTemplate(templatePath, targetPath, data)`: the list
of `fs.outputFile` writes it performs, in order; `none` when a render
throws (which aborts the run). -/
def createModuleFromTemplate (template : FSEntries) (targetPath : String)
    (data : SubstitutionData) : Option (List (String × String)) :=
  (getFilesC none template).mapM (fun fc => renderFile data targetPath fc.1 fc.2)

/-- A filesystem snapshot of the target: contents by absolute path. -/
def FS := String → Option String

/-- `fs.outputFile`: overwrite (or create) one path. -/
def applyWrite (fs : FS) (w : String × String) : FS :=
  fun q => if q = w.1 then some w.2 else fs q

/-- Perform a list of writes in order. -/
def applyWrites (fs : FS) (ws : List (String × String)) : FS :=
  ws.foldl applyWrite fs

/-- The last value written to `q` by `ws` (later writes win). -/
def lastVal (q : String) : List (String × String) → Option String
  | [] => none
  | w :: ws =>
    match lastVal q ws with
    | some v => some v
    | none => if q = w.1 then some w.2 else none

/-! ## Prompts, acquisition and the orchestrator

Interactive input is an explicit parameter: each prompt either yields its
answers or is cancelled by the user.  `process.exit` and the filesystem
side effects become an event trace, so ordering claims ("nothing is
written after a declined confirmation") are about the trace. -/

/-- The raw answers of `getSubstitutionDataPrompts` (prompt definitions
themselves are an external collaborator). -/
structure SubstAnswers where
  name : String
  description : String
  package : String
  authorName : String
  authorEmail : String
  authorUrl : String
  repo : String
deriving DecidableEq, Repr

/-- Outcome of the slug prompt: an answer, or user cancellation. -/
inductive SlugInput where
  | answer (slug : String)
  | cancel
deriving DecidableEq, Repr

/-- Outcome of the substitution-data prompts. -/
inductive SubstInput where
  | answer (a : SubstAnswers)
  | cancel
deriving DecidableEq, Repr

/-- Outcome of the non-empty-target confirmation prompt. -/
inductive ConfirmInput where
  | respond (shouldContinue : Bool)
  | cancel
deriving DecidableEq, Repr

/-- What `confirmTargetDirAsync` did: returned normally (recording
whether the prompt was shown at all), or called `process.exit`. -/
inductive ConfirmResult where
  | proceeded (prompted : Bool)
  | exited (code : Nat)
deriving DecidableEq, Repr

/-- `confirmTargetDirAsync(targetDir)` as a function of the directory
listing and the user's response.  An empty directory returns at once.
Otherwise the confirm prompt runs; its `onCancel` handler returns `false`
(it does not exit), so on cancellation `shouldContinue` is left
`undefined` and the following `if (!shouldContinue) process.exit(0)`
exits with code 0, exactly as for an explicit "no". -/
def confirmTargetDirAsync (files : List String) (input : ConfirmInput) :
    ConfirmResult :=
  if files.length = 0 then .proceeded false
  else
    let shouldContinue : Option Bool :=
      match input with
      | .respond b => some b
      | .cancel => none
    if shouldContinue = some true then .proceeded true else .exited 0

/-- `askForSubstitutionDataAsync`, given the prompt answers: the record
literal it returns. -/
def askForSubstitutionDataAsync (slug : String) (a : SubstAnswers) :
    SubstitutionData where
  project :=
    { slug := slug
      name := a.name
      version := "0.1.0"
      description := a.description
      package := a.package }
  author := a.authorName ++ " <" ++ a.authorEmail ++ "> (" ++ a.authorUrl ++ ")"
  license := "MIT"
  repo := a.repo

/-- A tarball download performed through `download-tarball`: which
package/dist-tag was resolved via `npm view` and where it was extracted. -/
structure DownloadRequest where
  packageName : String
  version : String
  dir : String
deriving DecidableEq, Repr

/-- `downloadPackageAsync(targetDir)`: resolves `expo-module-template` at
dist-tag `next` when `EXPO_BETA` is set and `latest` otherwise, downloads
the tarball into `targetDir`, and returns
`path.join(targetDir, 'package')`. -/
def downloadPackageAsync (targetDir : String) (expoBeta : Bool) :
    DownloadRequest × String :=
  ({ packageName := "expo-module-template"
     version := if expoBeta then "next" else "latest"
     dir := targetDir },
   pathJoin targetDir "package")

/-- JavaScript truthiness of `options.source` (`undefined` and the empty
string are falsy). -/
def sourceTruthy : Option String → Option String
  | some s => if s = "" then none else some s
  | none => none

/-- The template-acquisition expression of `main`:
`options.source ? path.join(CWD, options.source) : await
downloadPackageAsync(targetDir)`.  Returns the downloads performed and
the resulting template root. -/
def acquireTemplate (cwd : String) (source : Option String)
    (targetDir : String) (expoBeta : Bool) : List DownloadRequest × String :=
  match sourceTruthy source with
  | some src => ([], pathJoin cwd src)
  | none =>
    let (req, p) := downloadPackageAsync targetDir expoBeta
    ([req], p)

/-- `CommandOptions` (commander flags); `exampleApp` models the source's
`example` field (`example` is a Lean keyword). -/
structure CommandOptions where
  source : Option String
  withReadme : Bool
  withChangelog : Bool
  exampleApp : Bool
deriving DecidableEq, Repr

/-- One observable effect of a run. -/
inductive Event where
  | prompted (name : String)
  | ensuredDir (path : String)
  | downloaded (req : DownloadRequest)
  | wroteFile (path : String)
  | installedDeps
  | ranBuild
  | removedPath (path : String)
  | createdExampleApp
  | exited (code : Nat)
deriving DecidableEq, Repr

/-- Everything `main` consumes: CLI inputs, environment, the interactive
responses, the target directory's current listing, and the template tree
found at the acquired template root. -/
structure MainEnv where
  cwd : String
  target : Option String
  options : CommandOptions
  slugInput : SlugInput
  targetDirFiles : List String
  confirmInput : ConfirmInput
  substInput : SubstInput
  expoBeta : Bool
  template : FSEntries

/-- `path.join(CWD, target || slug)` (empty `target` is falsy). -/
def targetDirOf (env : MainEnv) (slug : String) : String :=
  pathJoin env.cwd
    (match env.target with
     | some t => if t = "" then slug else t
     | none => slug)

/-- The tail of `main` after the target directory is confirmed. -/
def mainAfterConfirm (env : MainEnv) (slug targetDir : String) : List Event :=
  Event.prompted "substitutionData" ::
  match env.substInput with
  | .cancel => [.exited 0]
  | .answer answers =>
    let data := askForSubstitutionDataAsync slug answers
    let (downloads, packagePath) :=
      acquireTemplate env.cwd env.options.source targetDir env.expoBeta
    downloads.map Event.downloaded ++
    match createModuleFromTemplate env.template targetDir data with
    | none => [.exited 1]
    | some ws =>
      ws.map (fun w => Event.wroteFile w.1) ++
      [Event.installedDeps, Event.ranBuild] ++
      (if (sourceTruthy env.options.source).isNone
       then [Event.removedPath packagePath] else []) ++
      (if env.options.withReadme then []
       else [Event.removedPath (pathJoin targetDir "README.md")]) ++
      (if env.options.withChangelog then []
       else [Event.removedPath (pathJoin targetDir "CHANGELOG.md")]) ++
      (if env.options.exampleApp then [Event.createdExampleApp] else []) ++
      [Event.exited 0]

/-- The whole `main` command as an event trace.  Cancelling the slug or
substitution prompts runs their `onCancel` handlers, which call
`process.exit(0)`; a failed step rejects and the process exits nonzero;
normal completion exits 0. -/
def runMain (env : MainEnv) : List Event :=
  Event.prompted "slug" ::
  match env.slugInput with
  | .cancel => [.exited 0]
  | .answer slug =>
    let targetDir := targetDirOf env slug
    Event.ensuredDir targetDir ::
    match confirmTargetDirAsync env.targetDirFiles env.confirmInput with
    | .exited c => [Event.prompted "confirm", .exited c]
    | .proceeded prompted =>
      (if prompted then [Event.prompted "confirm"] else []) ++
      mainAfterConfirm env slug targetDir

/-- The exit code reported by the trace's final `exited` event. -/
def exitCode? : List Event → Option Nat
  | [] => none
  | [e] =>
    match e with
    | .exited c => some c
    | _ => none
  | _ :: rest => exitCode? rest

/-- The filename components of a relative path. -/
def pathComponents (p : String) : List String :=
  (splitSep p.data).map (fun l => ⟨l⟩)

/-- No component of the prefix directory is an ignored name. -/
def DirOk (dir : Option String) : Prop :=
  ∀ d, dir = some d → ∀ comp ∈ pathComponents d, comp ∉ IGNORES_PATHS

/-- The empty target snapshot. -/
def emptyFS : FS := fun _ => none

/-! ## Fixtures -/

/-- A template tree with ignored entries at two depths. -/
def sampleTree : FSEntries :=
  .consDir "sub"
    (.consFile "index.ts" "export \x7b\x7d" (.consDir "node_modules"
      (.consFile "dep.js" "x" .nil) .nil))
    (.consDir "build" (.consFile "junk.js" "x" .nil)
      (.consFile "package.json" "\x7b\x7d"
        (.consFile "$package.json" "manifest" .nil)))

/-- Concrete prompt answers. -/
def sampleAnswers : SubstAnswers where
  name := "AcmeWidget"
  description := "An example widget"
  package := "com.acme.widget"
  authorName := "Ada"
  authorEmail := "ada@acme.io"
  authorUrl := "https://acme.io"
  repo := "https://github.com/acme/widget"

/-- A concrete run environment: non-empty target directory, declined
confirmation, no `--source`. -/
def sampleEnv : MainEnv where
  cwd := "/home/user"
  target := none
  options :=
    { source := none
      withReadme := false
      withChangelog := false
      exampleApp := true }
  slugInput := .answer "acme-widget"
  targetDirFiles := ["existing.txt"]
  confirmInput := .respond false
  substInput := .answer sampleAnswers
  expoBeta := false
  template := sampleTree

/-- A concrete substitution record, as built by
`askForSubstitutionDataAsync` for a package id with two dots. -/
def sampleData : SubstitutionData where
  project :=
    { slug := "acme-widget"
      name := "AcmeWidget"
      version := "0.1.0"
      description := "An example widget"
      package := "com.acme.widget" }
  author := "Ada <ada@acme.io> (https://acme.io)"
  license := "MIT"
  repo := "https://github.com/acme/widget"

/-! ## Rendering lemmas -/

theorem ejsRenderFuel_literal (od cd : Char) (esc : String → String)
    (lookup : String → Option String) :
    ∀ (fuel : Nat) (l : List Char), l.length < fuel →
      (∀ c ∈ l, c ≠ od) → ejsRenderFuel od cd esc lookup fuel l = some l := by
  intro fuel
  induction fuel with
  | zero => intro l hlen _; exact absurd hlen (Nat.not_lt_zero _)
  | succ fuel ih =>
    intro l hlen hlit
    cases l with
    | nil => rfl
    | cons c rest =>
      have hc : c ≠ od := hlit c (List.mem_cons_self c rest)
      have hcond : ¬ (c = od ∧ rest.head? = some '%') := fun h => hc h.1
      rw [ejsRenderFuel, if_neg hcond,
        ih rest (Nat.lt_of_succ_lt_succ (by simpa using hlen))
          (fun x hx => hlit x (List.mem_cons_of_mem c hx))]

/-- A path template containing no open delimiter renders to itself. -/
theorem renderPathTemplate_literal (d : SubstitutionData) (s : String)
    (h : ∀ c ∈ s.data, c ≠ Char.ofNat 123) :
    renderPathTemplate d s = some s := by
  unfold renderPathTemplate ejsRender
  rw [ejsRenderFuel_literal _ _ _ _ _ _ (Nat.lt_succ_self _) h]
  rfl

/-! ## Claims -/

/-- C1: the path-segment escape is `value.replace('.', path.sep)`, and a
JavaScript string-pattern `replace` substitutes only the first
occurrence.  For `project.package = "com.acme.widget"` the rendered
destination is `com/acme.widget/index.ts`, not the claimed
`com/acme/widget/index.ts`; dots in rendered file contents are indeed
left unchanged. -/
theorem dot_conversion_first_only :
    pathEscape "com.acme.widget" = "com/acme.widget" ∧
    renderPathTemplate sampleData
        (stripLeadingDollar "$\x7b%= project.package %\x7d/index.ts") =
      some "com/acme.widget/index.ts" ∧
    renderContentTemplate sampleData "<%= project.package %>" =
      some "com.acme.widget" :=
  ⟨by decide, by decide, by decide⟩

/-- C2 (counterexample): the template file `$$keep.ts` begins with `$`,
yet its rendered destination `$keep.ts` still contains a literal `$` —
the anchored `^\$` strip removes the marker exactly once and leaves any
further `$` in place. -/
theorem dollar_strip_claim_counterexample :
    "$$keep.ts".data.head? = some '$' ∧
    renderPathTemplate sampleData (stripLeadingDollar "$$keep.ts") =
      some "$keep.ts" ∧
    '$' ∈ "$keep.ts".data :=
  ⟨by decide, by decide, by decide⟩

/-- C2 (amended): the leading `$` marker is stripped exactly once, never
repeatedly; and when neither the remainder of the relative path contains
a further `$` nor a substitution tag (so no substituted value can
introduce one), the rendered destination contains no literal `$`. -/
theorem dollar_strip_destination (d : SubstitutionData) (rest : List Char)
    (hnd : '$' ∉ rest) (hnb : Char.ofNat 123 ∉ rest) :
    (∀ q : List Char, stripLeadingDollar ⟨'$' :: q⟩ = ⟨q⟩) ∧
    renderPathTemplate d (stripLeadingDollar ⟨'$' :: rest⟩) = some ⟨rest⟩ ∧
    ∀ c ∈ (⟨rest⟩ : String).data, c ≠ '$' := by
  have hstrip : ∀ q : List Char, stripLeadingDollar ⟨'$' :: q⟩ = ⟨q⟩ := by
    intro q; simp [stripLeadingDollar]
  refine ⟨hstrip, ?_, ?_⟩
  · rw [hstrip rest]
    exact renderPathTemplate_literal d ⟨rest⟩ (fun c hc he => hnb (he ▸ hc))
  · intro c hc he
    exact hnd (he ▸ hc)

theorem dollar_strip_destination_witness :
    ('$' ∉ "keep.ts".data ∧ Char.ofNat 123 ∉ "keep.ts".data) ∧
    renderPathTemplate sampleData (stripLeadingDollar ⟨'$' :: "keep.ts".data⟩) =
      some ⟨"keep.ts".data⟩ :=
  ⟨⟨by decide, by decide⟩,
    (dollar_strip_destination sampleData "keep.ts".data (by decide)
      (by decide)).2.1⟩

/-- C9: the `^\$` strip is anchored to the start of the whole relative
path string; a `$` that starts a non-first path component (one standing
right after a `/`) is preserved unchanged in the rendered destination,
whether or not the path also carries a leading marker. -/
theorem inner_dollar_preserved (d : SubstitutionData) (a b : List Char)
    (hnb : Char.ofNat 123 ∉ a ++ '/' :: '$' :: b) :
    (a.head? ≠ some '$' →
      renderPathTemplate d (stripLeadingDollar ⟨a ++ '/' :: '$' :: b⟩) =
        some ⟨a ++ '/' :: '$' :: b⟩) ∧
    (∀ t, a = '$' :: t →
      renderPathTemplate d (stripLeadingDollar ⟨a ++ '/' :: '$' :: b⟩) =
        some ⟨t ++ '/' :: '$' :: b⟩) := by
  constructor
  · intro hhd
    have hstrip : stripLeadingDollar ⟨a ++ '/' :: '$' :: b⟩ =
        ⟨a ++ '/' :: '$' :: b⟩ := by
      cases a with
      | nil => simp [stripLeadingDollar]
      | cons x t =>
        have hx : x ≠ '$' := by
          intro he; exact hhd (by simp [he])
        simp [stripLeadingDollar, hx]
    rw [hstrip]
    exact renderPathTemplate_literal d _ (fun c hc he => hnb (he ▸ hc))
  · intro t ht
    subst ht
    have hstrip : stripLeadingDollar ⟨('$' :: t) ++ '/' :: '$' :: b⟩ =
        ⟨t ++ '/' :: '$' :: b⟩ := by
      simp [stripLeadingDollar]
    rw [hstrip]
    refine renderPathTemplate_literal d _ (fun c hc he => hnb ?_)
    subst he
    simp only [List.cons_append]
    exact List.mem_cons_of_mem _ hc

theorem inner_dollar_preserved_witness :
    (Char.ofNat 123 ∉ "sub".data ++ '/' :: '$' :: "file.ts".data ∧
      "sub".data.head? ≠ some '$') ∧
    renderPathTemplate sampleData
        (stripLeadingDollar ⟨"sub".data ++ '/' :: '$' :: "file.ts".data⟩) =
      some ⟨"sub".data ++ '/' :: '$' :: "file.ts".data⟩ :=
  ⟨⟨by decide, by decide⟩,
    (inner_dollar_preserved sampleData "sub".data "file.ts".data
      (by decide)).1 (by decide)⟩

/-- C7: for every slug and every set of collected prompt answers, the
returned record has `license = "MIT"` and `author` formatted as
`name <email> (url)`. -/
theorem substitution_data_license_author (slug : String) (a : SubstAnswers) :
    (askForSubstitutionDataAsync slug a).license = "MIT" ∧
    (askForSubstitutionDataAsync slug a).author =
      a.authorName ++ " <" ++ a.authorEmail ++ "> (" ++ a.authorUrl ++ ")" :=
  ⟨rfl, rfl⟩

/-- C10: the returned record always carries `project.version = "0.1.0"`;
no prompt answer flows into that field. -/
theorem project_version_constant (slug : String) (a : SubstAnswers) :
    (askForSubstitutionDataAsync slug a).project.version = "0.1.0" :=
  rfl

/-- C8: a non-empty `--source` path is joined with the working directory
and used directly with no download; otherwise the fixed package
`expo-module-template` is resolved at dist-tag `next` under `EXPO_BETA`
and `latest` otherwise, its tarball is extracted beneath the target
directory, and the reported template root is the `package` subdirectory
of the target directory. -/
theorem template_acquisition (cwd src targetDir : String) (beta : Bool)
    (hsrc : src ≠ "") :
    acquireTemplate cwd (some src) targetDir beta = ([], pathJoin cwd src) ∧
    acquireTemplate cwd none targetDir beta =
      ([{ packageName := "expo-module-template"
          version := if beta then "next" else "latest"
          dir := targetDir }],
        pathJoin targetDir "package") := by
  constructor
  · simp [acquireTemplate, sourceTruthy, hsrc]
  · rfl

theorem template_acquisition_witness :
    ("local-template" ≠ "") ∧
    acquireTemplate "/cwd" (some "local-template") "/cwd/mod" false =
      ([], pathJoin "/cwd" "local-template") :=
  ⟨by decide,
    (template_acquisition "/cwd" "local-template" "/cwd/mod" false
      (by decide)).1⟩

/-! ## Traversal invariant (C4) -/

theorem splitSep_ne_nil : ∀ l : List Char, splitSep l ≠ [] := by
  intro l
  cases l with
  | nil => simp [splitSep]
  | cons c rest =>
    by_cases hc : c = pathSepChar
    · simp [splitSep, hc]
    · simp only [splitSep, if_neg hc]
      cases h : splitSep rest with
      | nil => simp
      | cons g gs => simp

theorem splitSep_append_sep (xs ys : List Char) :
    splitSep (xs ++ pathSepChar :: ys) = splitSep xs ++ splitSep ys := by
  induction xs with
  | nil => simp [splitSep]
  | cons c rest ih =>
    by_cases hc : c = pathSepChar
    · simp [splitSep, hc, ih]
    · simp only [List.cons_append, splitSep, if_neg hc, List.append_eq]
      cases h : splitSep rest with
      | nil => exact absurd h (splitSep_ne_nil rest)
      | cons g gs =>
        rw [ih, h]
        simp

theorem splitSep_no_sep (xs : List Char) (h : ∀ c ∈ xs, c ≠ pathSepChar) :
    splitSep xs = [xs] := by
  induction xs with
  | nil => rfl
  | cons c rest ih =>
    have hc : c ≠ pathSepChar := h c (List.mem_cons_self c rest)
    rw [splitSep, if_neg hc, ih (fun x hx => h x (List.mem_cons_of_mem c hx))]

/-- The components of `path.join(dir, name)` for a separator-free `name`
are those of `dir` followed by `name`. -/
theorem pathComponents_joinRel (dir : Option String) (name : String)
    (hname : ∀ c ∈ name.data, c ≠ pathSepChar) :
    pathComponents (joinRel dir name) =
      (match dir with
       | none => []
       | some d => pathComponents d) ++ [name] := by
  cases dir with
  | none =>
    show pathComponents name = [] ++ [name]
    rw [pathComponents, splitSep_no_sep name.data hname]
    rfl
  | some d =>
    show pathComponents (d ++ "/" ++ name) = pathComponents d ++ [name]
    have hdata : (d ++ "/" ++ name).data = d.data ++ pathSepChar :: name.data := by
      have hsep : "/".data = [pathSepChar] := by decide
      rw [String.data_append, String.data_append, hsep, List.append_assoc]
      rfl
    rw [pathComponents, hdata, splitSep_append_sep,
      splitSep_no_sep name.data hname, List.map_append]
    rfl

theorem getFilesC_not_ignored :
    ∀ (t : FSEntries) (dir : Option String),
      namesOk t = true → DirOk dir →
      ∀ fc ∈ getFilesC dir t, ∀ comp ∈ pathComponents fc.1,
        comp ∉ IGNORES_PATHS := by
  intro t
  induction t with
  | nil =>
    intro dir _ _ fc hfc
    simp [getFilesC] at hfc
  | consFile name content rest ih =>
    intro dir hn hd fc hfc
    simp only [namesOk, Bool.and_eq_true, List.all_eq_true,
      decide_eq_true_eq] at hn
    obtain ⟨hname, hrest⟩ := hn
    rw [getFilesC] at hfc
    by_cases hig : isIgnored dir name
    · rw [if_pos hig] at hfc
      exact ih dir hrest hd fc hfc
    · rw [if_neg hig] at hfc
      rcases List.mem_cons.mp hfc with hfc | hfc
      · subst hfc
        intro comp hcomp
        rw [pathComponents_joinRel dir name hname] at hcomp
        rcases List.mem_append.mp hcomp with hcomp | hcomp
        · cases dir with
          | none => simp at hcomp
          | some d => exact hd d rfl comp hcomp
        · have : comp = name := by simpa using hcomp
          subst this
          intro hmem
          exact hig (Or.inr hmem)
      · exact ih dir hrest hd fc hfc
  | consDir name sub rest ihsub ihrest =>
    intro dir hn hd fc hfc
    simp only [namesOk, Bool.and_eq_true, List.all_eq_true,
      decide_eq_true_eq] at hn
    obtain ⟨⟨hname, hsub⟩, hrest⟩ := hn
    rw [getFilesC] at hfc
    by_cases hig : isIgnored dir name
    · rw [if_pos hig] at hfc
      exact ihrest dir hrest hd fc hfc
    · rw [if_neg hig] at hfc
      rcases List.mem_append.mp hfc with hfc | hfc
      · refine ihsub (some (joinRel dir name)) hsub ?_ fc hfc
        intro d hdd comp hcomp
        cases hdd
        rw [pathComponents_joinRel dir name hname] at hcomp
        rcases List.mem_append.mp hcomp with hcomp | hcomp
        · cases dir with
          | none => simp at hcomp
          | some d' => exact hd d' rfl comp hcomp
        · have : comp = name := by simpa using hcomp
          subst this
          intro hmem
          exact hig (Or.inr hmem)
      · exact ihrest dir hrest hd fc hfc

/-- C4: for every directory tree (whose entry names are plain filename
components), no path returned by `getFilesAsync` has any filename
component equal to an ignored name, at any depth: every component of a
returned path was itself the `file` of some traversal step and passed the
`IGNORES_PATHS` filter. -/
theorem getFiles_never_ignored (t : FSEntries) (h : namesOk t = true) :
    ∀ p ∈ getFilesAsync t, ∀ comp ∈ pathComponents p,
      comp ∉ IGNORES_PATHS := by
  intro p hp
  simp only [getFilesAsync, List.mem_map] at hp
  obtain ⟨fc, hfc, rfl⟩ := hp
  exact getFilesC_not_ignored t none h (fun d hd => nomatch hd) fc hfc

theorem getFiles_never_ignored_witness :
    namesOk sampleTree = true ∧ ("sub" : String) ∉ IGNORES_PATHS :=
  ⟨by decide,
    getFiles_never_ignored sampleTree (by decide) "sub/index.ts" (by decide)
      "sub" (by decide)⟩

/-! ## Idempotence of the render step (C3) -/

theorem applyWrites_apply (ws : List (String × String)) :
    ∀ (fs : FS) (q : String),
      applyWrites fs ws q =
        match lastVal q ws with
        | some v => some v
        | none => fs q := by
  induction ws with
  | nil => intro fs q; rfl
  | cons w ws ih =>
    intro fs q
    show applyWrites (applyWrite fs w) ws q = _
    rw [ih]
    cases hl : lastVal q ws with
    | some v => simp [lastVal, hl]
    | none =>
      simp only [lastVal, hl, applyWrite]
      by_cases hq : q = w.1
      · simp [hq]
      · simp [hq]

/-- Re-applying the same write list is a no-op on the target snapshot. -/
theorem applyWrites_self_idem (fs : FS) (ws : List (String × String)) :
    applyWrites (applyWrites fs ws) ws = applyWrites fs ws := by
  funext q
  simp only [applyWrites_apply]
  cases hl : lastVal q ws <;> simp

/-- C3: the render step is a pure function of the template tree and the
substitution data — a second run over the same inputs produces the
byte-identical write list, and applying that list again leaves the
target filesystem unchanged. -/
theorem render_step_idempotent (template : FSEntries) (targetPath : String)
    (data : SubstitutionData) (ws : List (String × String)) (fs : FS)
    (h : createModuleFromTemplate template targetPath data = some ws) :
    createModuleFromTemplate template targetPath data = some ws ∧
    applyWrites (applyWrites fs ws) ws = applyWrites fs ws :=
  ⟨h, applyWrites_self_idem fs ws⟩

theorem render_step_idempotent_witness :
    createModuleFromTemplate sampleTree "/home/user/acme-widget" sampleData =
      some [("/home/user/acme-widget/sub/index.ts", "export \x7b\x7d"),
            ("/home/user/acme-widget/package.json", "manifest")] ∧
    applyWrites
        (applyWrites emptyFS
          [("/home/user/acme-widget/sub/index.ts", "export \x7b\x7d"),
           ("/home/user/acme-widget/package.json", "manifest")])
        [("/home/user/acme-widget/sub/index.ts", "export \x7b\x7d"),
         ("/home/user/acme-widget/package.json", "manifest")] =
      applyWrites emptyFS
        [("/home/user/acme-widget/sub/index.ts", "export \x7b\x7d"),
         ("/home/user/acme-widget/package.json", "manifest")] :=
  render_step_idempotent sampleTree "/home/user/acme-widget" sampleData
    [("/home/user/acme-widget/sub/index.ts", "export \x7b\x7d"),
     ("/home/user/acme-widget/package.json", "manifest")]
    emptyFS (by decide)

/-! ## Orchestration (C5, C6) -/

theorem exitCode?_cons (e : Event) (l : List Event) (h : l ≠ []) :
    exitCode? (e :: l) = exitCode? l := by
  cases l with
  | nil => exact absurd rfl h
  | cons a as => rfl

theorem exitCode?_append_single (l : List Event) (c : Nat) :
    exitCode? (l ++ [Event.exited c]) = some c := by
  induction l with
  | nil => rfl
  | cons e rest ih =>
    rw [List.cons_append, exitCode?_cons e _ (by simp), ih]

theorem exitCode?_append (l1 l2 : List Event) (h : l2 ≠ []) :
    exitCode? (l1 ++ l2) = exitCode? l2 := by
  induction l1 with
  | nil => rfl
  | cons e rest ih =>
    rw [List.cons_append,
      exitCode?_cons e _ (fun hn => h (List.append_eq_nil.mp hn).2), ih]

theorem exitCode?_exited (c : Nat) : exitCode? [Event.exited c] = some c := rfl

/-- C5: an empty target directory makes `confirmTargetDirAsync` return
without showing the prompt; a non-empty one with a declined confirmation
makes `main` exit (code 0) right after the prompt, before the render step
— the trace contains no file write. -/
theorem declined_confirmation_aborts (env : MainEnv) (s : String) :
    (env.targetDirFiles = [] →
      confirmTargetDirAsync env.targetDirFiles env.confirmInput =
        .proceeded false) ∧
    (env.slugInput = .answer s → env.targetDirFiles ≠ [] →
      env.confirmInput = .respond false →
      runMain env = [.prompted "slug", .ensuredDir (targetDirOf env s),
        .prompted "confirm", .exited 0] ∧
      ∀ p, Event.wroteFile p ∉ runMain env) := by
  constructor
  · intro h
    rw [h]
    rfl
  · intro hs hne hc
    have hlen : ¬ env.targetDirFiles.length = 0 := by
      simpa [List.length_eq_zero] using hne
    have htrace : runMain env = [.prompted "slug",
        .ensuredDir (targetDirOf env s), .prompted "confirm", .exited 0] := by
      rw [runMain, hs]
      simp [confirmTargetDirAsync, hc, hlen]
    refine ⟨htrace, ?_⟩
    intro p hp
    rw [htrace] at hp
    simp at hp

theorem declined_confirmation_aborts_witness :
    (sampleEnv.targetDirFiles ≠ [] ∧
      sampleEnv.confirmInput = .respond false) ∧
    runMain sampleEnv = [.prompted "slug",
      .ensuredDir (targetDirOf sampleEnv "acme-widget"),
      .prompted "confirm", .exited 0] :=
  ⟨⟨by decide, rfl⟩,
    ((declined_confirmation_aborts sampleEnv "acme-widget").2 rfl
      (by decide) rfl).1⟩

/-- C6: cancelling the slug prompt, the substitution-data prompts, or the
non-empty-target confirmation all end the process with exit code 0 (for
the confirmation prompt, via `onCancel: () => false` leaving
`shouldContinue` undefined, so `!shouldContinue` exits 0); a completed
run also exits 0, and a failing render step is the unhandled-error path,
exiting nonzero. -/
theorem cancellation_exits_zero (env : MainEnv) (s : String)
    (a : SubstAnswers) (ws : List (String × String)) :
    (env.slugInput = .cancel →
      runMain env = [.prompted "slug", .exited 0]) ∧
    (env.slugInput = .answer s → env.targetDirFiles ≠ [] →
      env.confirmInput = .cancel → exitCode? (runMain env) = some 0) ∧
    (env.slugInput = .answer s → env.targetDirFiles = [] →
      env.substInput = .cancel → exitCode? (runMain env) = some 0) ∧
    (env.slugInput = .answer s → env.targetDirFiles = [] →
      env.substInput = .answer a →
      createModuleFromTemplate env.template (targetDirOf env s)
        (askForSubstitutionDataAsync s a) = some ws →
      exitCode? (runMain env) = some 0) ∧
    (env.slugInput = .answer s → env.targetDirFiles = [] →
      env.substInput = .answer a →
      createModuleFromTemplate env.template (targetDirOf env s)
        (askForSubstitutionDataAsync s a) = none →
      exitCode? (runMain env) = some 1) := by
  refine ⟨?_, ?_, ?_, ?_, ?_⟩
  · intro h
    rw [runMain, h]
  · intro hs hne hc
    have hlen : ¬ env.targetDirFiles.length = 0 := by
      simpa [List.length_eq_zero] using hne
    rw [runMain, hs]
    simp [confirmTargetDirAsync, hc, hlen, exitCode?]
  · intro hs hemp hsub
    rw [runMain, hs]
    simp [confirmTargetDirAsync, hemp, mainAfterConfirm, hsub, exitCode?]
  · intro hs hemp hsub hrender
    rcases hacq : acquireTemplate env.cwd env.options.source
        (targetDirOf env s) env.expoBeta with ⟨dls, pp⟩
    simp [runMain, hs, confirmTargetDirAsync, hemp, mainAfterConfirm, hsub,
      hacq, hrender, exitCode?_cons, exitCode?_append, exitCode?_exited]
  · intro hs hemp hsub hrender
    rcases hacq : acquireTemplate env.cwd env.options.source
        (targetDirOf env s) env.expoBeta with ⟨dls, pp⟩
    simp [runMain, hs, confirmTargetDirAsync, hemp, mainAfterConfirm, hsub,
      hacq, hrender, exitCode?_cons, exitCode?_append, exitCode?_exited]

theorem cancellation_exits_zero_witness :
    runMain { sampleEnv with slugInput := SlugInput.cancel } =
      [.prompted "slug", .exited 0] :=
  (cancellation_exits_zero { sampleEnv with slugInput := SlugInput.cancel }
    "acme-widget" sampleAnswers []).1 rfl

end Expo
